import Mathlib

/-!
Shallow embedding of `setup-sriov-vfs` (src/main.go) and of the spec's
counter-based MAC assignment engine, with theorems settling the frozen
claims about the program.

The Go program is a linear orchestration over OS-exposed files.  We model
the filesystem as a read oracle (`FS`): directory listings, stat results,
file contents and symlink targets are functions of the path, and the
success of a write is an oracle `writeOk` of the path.  The observable
behaviour of the program is its trace of attempted writes and warnings
(`Event`), plus its exit code.  Log message texts are abbreviated
constants; stdout informational prints are not modelled (no claim
mentions them).
-/

namespace SriovVFs

/-! ## Go string primitives (strings.Split, strings.TrimSpace, strings.HasPrefix,
strings.Join), modelled directly over the character list of a `String`. -/

/-- Splitting a character list at every occurrence of `sep`, accumulator style;
mirrors Go `strings.Split` for a one-character separator. -/
def splitCharAux (sep : Char) : List Char → List Char → List (List Char)
  | [], acc => [acc.reverse]
  | c :: cs, acc =>
    if c = sep then acc.reverse :: splitCharAux sep cs []
    else splitCharAux sep cs (c :: acc)

/-- Go `strings.Split(s, sep)` for a one-character separator. -/
def goSplit (s : String) (sep : Char) : List String :=
  (splitCharAux sep s.toList []).map (fun l => String.mk l)

/-- ASCII whitespace as trimmed by Go `strings.TrimSpace` (the Unicode cases
beyond ASCII do not occur in sysfs contents). -/
def isGoSpace (c : Char) : Bool :=
  c = ' ' || c = '\t' || c = '\n' || c = '\r' || c = '\x0b' || c = '\x0c'

/-- Go `strings.TrimSpace`. -/
def goTrimSpace (s : String) : String :=
  String.mk (((s.toList.dropWhile isGoSpace).reverse.dropWhile isGoSpace).reverse)

/-- Prefix test on character lists. -/
def hasPrefixList : List Char → List Char → Bool
  | [], _ => true
  | _ :: _, [] => false
  | p :: ps, c :: cs => p = c && hasPrefixList ps cs

/-- Go `strings.HasPrefix(s, pre)`. -/
def goStartsWith (s pre : String) : Bool :=
  hasPrefixList pre.toList s.toList

/-- Go `strings.Join` (used for colon-joining octet groups). -/
def joinSep (sep : String) : List String → String
  | [] => ""
  | [x] => x
  | x :: y :: xs => x ++ sep ++ joinSep sep (y :: xs)

/-! ## Go path/filepath primitives.  All paths handled by the program are
absolute (rooted at "/"), so `filepath.Clean` never keeps a leading "..",
and `filepath.Abs` of such a path is just `filepath.Clean` of it. -/

/-- Segment cleaning of `filepath.Clean` for a rooted path: empty and "."
segments vanish, ".." pops the previous segment (and is dropped at the root). -/
def cleanAbsSegs (segs : List String) : List String :=
  segs.foldl (fun acc seg =>
    if seg = "" ∨ seg = "." then acc
    else if seg = ".." then acc.dropLast
    else acc ++ [seg]) []

/-- Go `filepath.Join(a, b)` for a rooted `a`: concatenate and clean. -/
def filepathJoin (a b : String) : String :=
  "/" ++ joinSep "/" (cleanAbsSegs (goSplit a '/' ++ goSplit b '/'))

/-- Variadic `filepath.Join`, folded pairwise (equivalent on rooted paths). -/
def joinPath : List String → String
  | [] => ""
  | p :: rest => rest.foldl filepathJoin p

/-- Go `filepath.Base`: last nonempty path component. -/
def filepathBase (p : String) : String :=
  match ((goSplit p '/').filter (fun s => s ≠ "")).getLast? with
  | some s => s
  | none => if p = "" then "." else "/"

/-! ## Go strconv primitives. -/

/-- Value of a hexadecimal digit character, as accepted by
`strconv.ParseInt(_, 16, 64)`. -/
def hexVal? (c : Char) : Option Nat :=
  if '0' ≤ c ∧ c ≤ '9' then some (c.toNat - '0'.toNat)
  else if 'a' ≤ c ∧ c ≤ 'f' then some (c.toNat - 'a'.toNat + 10)
  else if 'A' ≤ c ∧ c ≤ 'F' then some (c.toNat - 'A'.toNat + 10)
  else none

/-- Value of a decimal digit character. -/
def decVal? (c : Char) : Option Nat :=
  if '0' ≤ c ∧ c ≤ '9' then some (c.toNat - '0'.toNat) else none

/-- Accumulate a digit string; `none` on an empty string or a non-digit. -/
def digitsVal? (dv : Char → Option Nat) (base : Nat) (cs : List Char) : Option Nat :=
  match cs with
  | [] => none
  | _ =>
    cs.foldl (fun acc c =>
      match acc, dv c with
      | some a, some d => some (a * base + d)
      | _, _ => none) (some 0)

/-- Go `strconv.ParseInt(s, base, 64)`: optional sign, digits, 64-bit bounds
(error on overflow). -/
def parseSigned (dv : Char → Option Nat) (base : Nat) (s : String) : Option Int :=
  let sd : Bool × List Char :=
    match s.toList with
    | '+' :: rest => (false, rest)
    | '-' :: rest => (true, rest)
    | cs => (false, cs)
  match digitsVal? dv base sd.2 with
  | none => none
  | some n =>
    if sd.1 then (if n ≤ 2 ^ 63 then some (-(n : Int)) else none)
    else (if n < 2 ^ 63 then some (n : Int) else none)

/-- Go `strconv.ParseInt(s, 16, 64)` as used on the PF MAC's last octet. -/
def parseIntHex (s : String) : Option Int :=
  parseSigned hexVal? 16 s

/-- Go `strconv.Atoi` (= `ParseInt(s, 10, 0)` with 64-bit `int`). -/
def parseAtoi (s : String) : Option Int :=
  parseSigned decVal? 10 s

/-- Go `fmt.Sprintf("%02x", v)` for an `int64` value: lowercase hex,
zero-padded to width 2 (a sign counts toward the width). -/
def fmt02x (v : Int) : String :=
  if v < 0 then "-" ++ String.mk (Nat.toDigits 16 v.natAbs)
  else if (String.mk (Nat.toDigits 16 v.toNat)).length < 2 then
    "0" ++ String.mk (Nat.toDigits 16 v.toNat)
  else String.mk (Nat.toDigits 16 v.toNat)

/-! ## Filesystem oracle and event traces. -/

/-- Read-only oracle for the OS filesystem calls the program makes.
`readDir` models `os.ReadDir` (entry names in listing order), `isDir`
models `os.Stat(path).IsDir()` — `os.Stat` follows symlinks (stat, not
lstat), so the answer is about the resolved target — `readFile` models
`os.ReadFile`, `readlink` models `os.Readlink`, and `writeOk path` tells
whether `os.WriteFile(path, …)` succeeds. -/
structure FS where
  readDir : String → Except String (List String)
  isDir : String → Except String Bool
  readFile : String → Except String String
  readlink : String → Except String String
  writeOk : String → Bool

/-- Observable events of a run: an attempted write (with its outcome) or a
warning logged to stderr (message text abbreviated). -/
inductive Event where
  | write (path content : String) (ok : Bool)
  | warn (msg : String)
deriving DecidableEq

/-- Whether an event is a write attempt. -/
def Event.isWrite : Event → Bool
  | Event.write .. => true
  | _ => false

/-- The write events of a trace. -/
def writesOf (evs : List Event) : List Event :=
  evs.filter Event.isWrite

/-- Order-preserving concatenation of the per-element traces of a loop body
(the shape of every `for … { … continue … }` loop of the program whose
iterations share no state). -/
def concatMap {α β : Type} (f : α → List β) : List α → List β
  | [] => []
  | a :: l => f a ++ concatMap f l

/-- Whether an `Except` is an error. -/
def isFailure {α : Type} : Except String α → Bool
  | Except.error _ => true
  | Except.ok _ => false

/-- Whether a stat result resolved to a directory. -/
def isOkDir : Except String Bool → Bool
  | Except.ok true => true
  | _ => false

/-! ## Embedding of src/main.go. -/

/-- `infinibandBasePath` (src/main.go:11). -/
def infinibandBasePath : String := "/sys/class/infiniband"

/-- Loop body of `getHCAs` (src/main.go:73-83): stat each entry following
symlinks; on stat failure warn and skip; keep the entry's name iff the
resolved target is a directory. -/
def getHCAsLoop (fs : FS) (basePath : String) : List String → List String × List Event
  | [] => ([], [])
  | name :: rest =>
    let fullPath := filepathJoin basePath name
    let r := getHCAsLoop fs basePath rest
    match fs.isDir fullPath with
    | Except.error _ => (r.1, Event.warn "could not stat" :: r.2)
    | Except.ok true => (name :: r.1, r.2)
    | Except.ok false => r

/-- `getHCAs` (src/main.go:66-85). -/
def getHCAs (fs : FS) (basePath : String) : Except String (List String) × List Event :=
  match fs.readDir basePath with
  | Except.error e => (Except.error e, [])
  | Except.ok entries =>
    let r := getHCAsLoop fs basePath entries
    (Except.ok r.1, r.2)

/-- `checkDeviceId` (src/main.go:88-96). -/
def checkDeviceId (fs : FS) (hca expectedDeviceID : String) : Except String Bool :=
  let devicePath := joinPath [infinibandBasePath, hca, "device", "device"]
  match fs.readFile devicePath with
  | Except.error e => Except.error e
  | Except.ok data => Except.ok (goTrimSpace data = expectedDeviceID)

/-- Path of the `device/net` directory of an HCA (src/main.go:131). -/
def netDirOf (hca : String) : String :=
  joinPath [infinibandBasePath, hca, "device", "net"]

/-- `getPFMac` (src/main.go:130-147): first entry of `device/net`, then the
trimmed content of that interface's `address` file. -/
def getPFMac (fs : FS) (hca : String) : Except String String :=
  match fs.readDir (netDirOf hca) with
  | Except.error _ => Except.error "error reading net directory"
  | Except.ok [] => Except.error "no network interfaces found"
  | Except.ok (iface :: _) =>
    match fs.readFile (joinPath [netDirOf hca, iface, "address"]) with
    | Except.error _ => Except.error "error reading MAC address"
    | Except.ok data => Except.ok (goTrimSpace data)

/-- `setSriovNumVFs` (src/main.go:150-153): write the decimal VF count to
`device/sriov_numvfs`. -/
def setSriovNumVFs (fs : FS) (hca : String) (num : Int) : Except String Unit × List Event :=
  let sriovPath := joinPath [infinibandBasePath, hca, "device", "sriov_numvfs"]
  if fs.writeOk sriovPath then (Except.ok (), [Event.write sriovPath (toString num) true])
  else (Except.error "write sriov_numvfs", [Event.write sriovPath (toString num) false])

/-- Path of VF `i`'s MAC attribute file (src/main.go:176). -/
def vfMacPath (hca : String) (i : Nat) : String :=
  joinPath [infinibandBasePath, hca, "device", "sriov", toString i, "mac"]

/-- The VF MAC string built at src/main.go:172-174: first octet the constant
"02", octets 1-4 copied from the PF MAC, last octet `(pfLastOctet + i) % 256`
in two-digit hex (Go `%` on `int64` is truncated division, `Int.tmod`). -/
def vfMacOf (o1 o2 o3 o4 : String) (pfLastOctet : Int) (i : Nat) : String :=
  "02:" ++ o1 ++ ":" ++ o2 ++ ":" ++ o3 ++ ":" ++ o4 ++ ":" ++
    fmt02x (Int.tmod (pfLastOctet + (i : Int)) 256)

/-- One iteration of the `assignVFMacs` loop (src/main.go:171-182): attempt
the MAC write; on failure warn and continue. -/
def assignVFStep (fs : FS) (hca o1 o2 o3 o4 : String) (pfLastOctet : Int) (i : Nat) :
    List Event :=
  let vfMAC := vfMacOf o1 o2 o3 o4 pfLastOctet i
  let p := vfMacPath hca i
  Event.write p vfMAC (fs.writeOk p) ::
    (if fs.writeOk p then [] else [Event.warn "failed to write VF MAC"])

/-- The full trace of the `assignVFMacs` loop over VF indices `0..numVFs-1`
(empty when `numVFs ≤ 0`, as for Go's `for i := 0; i < numVFs; i++`). -/
def assignVFMacsWith (fs : FS) (hca o1 o2 o3 o4 : String) (pfLastOctet : Int)
    (numVFs : Int) : List Event :=
  concatMap (assignVFStep fs hca o1 o2 o3 o4 pfLastOctet) (List.range numVFs.toNat)

/-- `assignVFMacs` (src/main.go:158-184): split the PF MAC on ":", require 6
octets, parse the last octet as hex, then loop over the VF indices. -/
def assignVFMacs (fs : FS) (hca pfMAC : String) (numVFs : Int) :
    Except String Unit × List Event :=
  match goSplit pfMAC ':' with
  | [_o0, o1, o2, o3, o4, o5] =>
    (match parseIntHex o5 with
     | none => (Except.error "invalid last octet in PF MAC", [])
     | some pfLastOctet =>
       (Except.ok (), assignVFMacsWith fs hca o1 o2 o3 o4 pfLastOctet numVFs))
  | _ => (Except.error "invalid PF MAC address format", [])

/-- The PF's PCI device directory (src/main.go:190). -/
def pfDevDirOf (hca : String) : String :=
  joinPath [infinibandBasePath, hca, "device"]

/-- The VF PCI address obtained from a `virtfn*` symlink target
(src/main.go:207-213): `filepath.Base(filepath.Abs(filepath.Join(dir, target)))`;
on these rooted paths `Abs` is a no-op after `Join`'s clean. -/
def vfPciAddrOf (pfDeviceDir target : String) : String :=
  filepathBase (filepathJoin pfDeviceDir target)

/-- The `driver` symlink of a VF's PCI device node (src/main.go:217). -/
def vfDriverLinkPath (pciAddr : String) : String :=
  joinPath ["/sys/bus/pci/devices", pciAddr, "driver"]

/-- A driver's `unbind` control file (src/main.go:226). -/
def driverUnbindPath (driverName : String) : String :=
  joinPath ["/sys/bus/pci/drivers", driverName, "unbind"]

/-- A driver's `bind` control file (src/main.go:234). -/
def driverBindPath (driverName : String) : String :=
  joinPath ["/sys/bus/pci/drivers", driverName, "bind"]

/-- One iteration of the `rebindVFDevices` loop (src/main.go:195-240):
skip non-`virtfn` entries; resolve the symlink (warn and skip on failure);
resolve the driver symlink (warn and skip on failure); then write the PCI
address to the driver's `unbind` and then `bind` control files — the bind
write is attempted regardless of the unbind outcome, each failure only
warns. -/
def rebindOne (fs : FS) (pfDeviceDir name : String) : List Event :=
  if goStartsWith name "virtfn" = false then []
  else
    match fs.readlink (filepathJoin pfDeviceDir name) with
    | Except.error _ => [Event.warn "could not read symlink"]
    | Except.ok target =>
      let pciAddr := vfPciAddrOf pfDeviceDir target
      match fs.readlink (vfDriverLinkPath pciAddr) with
      | Except.error _ => [Event.warn "could not read driver symlink"]
      | Except.ok driverLink =>
        let driverName := filepathBase driverLink
        let unbindP := driverUnbindPath driverName
        let bindP := driverBindPath driverName
        Event.write unbindP pciAddr (fs.writeOk unbindP) ::
          ((if fs.writeOk unbindP then [] else [Event.warn "failed to unbind"]) ++
            (Event.write bindP pciAddr (fs.writeOk bindP) ::
              (if fs.writeOk bindP then [] else [Event.warn "failed to bind"])))

/-- `rebindVFDevices` (src/main.go:188-242). -/
def rebindVFDevices (fs : FS) (hca : String) : Except String Unit × List Event :=
  match fs.readDir (pfDevDirOf hca) with
  | Except.error _ => (Except.error "error reading PF device directory", [])
  | Except.ok entries => (Except.ok (), concatMap (rebindOne fs (pfDevDirOf hca)) entries)

/-- `configureHCA` (src/main.go:99-126): PF MAC, pool reset to 0, pool set,
MAC assignment, rebind — each step only if the previous one succeeded. -/
def configureHCA (fs : FS) (hca : String) (numVFs : Int) :
    Except String Unit × List Event :=
  match getPFMac fs hca with
  | Except.error e => (Except.error ("failed to get PF MAC: " ++ e), [])
  | Except.ok pfMAC =>
    match setSriovNumVFs fs hca 0 with
    | (Except.error _, evs) => (Except.error "failed to reset sriov_numvfs", evs)
    | (Except.ok _, evs0) =>
      match setSriovNumVFs fs hca numVFs with
      | (Except.error _, evs) => (Except.error "failed to set sriov_numvfs", evs0 ++ evs)
      | (Except.ok _, evs1) =>
        match assignVFMacs fs hca pfMAC numVFs with
        | (Except.error _, evs) => (Except.error "failed to assign VF MACs", evs0 ++ evs1 ++ evs)
        | (Except.ok _, evs2) =>
          match rebindVFDevices fs hca with
          | (Except.error _, evs) =>
            (Except.error "failed to rebind VF devices", evs0 ++ evs1 ++ evs2 ++ evs)
          | (Except.ok _, evs3) => (Except.ok (), evs0 ++ evs1 ++ evs2 ++ evs3)

/-- Configuration attempt for one HCA inside the main loop, with the error
report of src/main.go:55-58 as a warning event. -/
def runConfigure (fs : FS) (numVFs : Int) (hca : String) : List Event :=
  match configureHCA fs hca numVFs with
  | (Except.error _, evs) => evs ++ [Event.warn "error configuring HCA"]
  | (Except.ok _, evs) => evs

/-- Body of the main loop over HCAs (src/main.go:41-59): optional device-ID
filter, then configuration; every failure only logs and continues. -/
def processHCA (fs : FS) (deviceID : String) (numVFs : Int) (hca : String) : List Event :=
  if deviceID = "" then runConfigure fs numVFs hca
  else
    match checkDeviceId fs hca deviceID with
    | Except.error _ => [Event.warn "error checking device ID"]
    | Except.ok false => []
    | Except.ok true => runConfigure fs numVFs hca

/-- Enumeration outcome handling of `main` (src/main.go:30-61): a failed or
empty enumeration exits 1; otherwise the loop visits every HCA and the
process exits 0. -/
def mainRunLoop (fs : FS) (deviceID : String) (numVFs : Int) :
    Except String (List String) × List Event → Nat × List Event
  | (Except.error _, evs) => (1, evs)
  | (Except.ok hcas, evs) =>
    if hcas.length = 0 then (1, evs)
    else (0, evs ++ concatMap (processHCA fs deviceID numVFs) hcas)

/-- NUM_VFS validation of `main` (src/main.go:20-24): a parse error or a
non-positive value exits 1 before anything else happens. -/
def mainRunWith (fs : FS) (deviceID : String) : Option Int → Nat × List Event
  | none => (1, [])
  | some numVFs =>
    if numVFs ≤ 0 then (1, [])
    else mainRunLoop fs deviceID numVFs (getHCAs fs infinibandBasePath)

/-- `main` (src/main.go:13-62) as a function of the filesystem oracle and the
`NUM_VFS` / `DEVICE_ID` environment values (empty string = unset): returns
the process exit code and the event trace. -/
def mainRun (fs : FS) (numVFsStr deviceID : String) : Nat × List Event :=
  if numVFsStr = "" then (1, [])
  else mainRunWith fs deviceID (parseAtoi numVFsStr)

/-! ## Counter-based MAC assignment engine, modelled from the spec.

The repository's README documents VF MACs of the form
`02:<machinePrefix>:<VF_counter>` with the prefix derived from
`/etc/machine-id` and a global VF counter shared across all HCAs; the
source of that variant is not under src/ (src/main.go holds the PF-MAC
variant), so the definitions below are modelled from the spec (§4.1, §4.4)
and the README. -/

/-- Two-digit lowercase hexadecimal rendering of a byte-sized counter value
(spec §3: "octet 5 is the Global VF Counter value at assignment time,
two-digit hex"). -/
def hex2 (n : Nat) : String :=
  String.mk [Nat.digitChar (n / 16 % 16), Nat.digitChar (n % 16)]

/-- Consecutive 2-character groups of a character list (spec §4.1). -/
def pairGroups : List Char → List String
  | a :: b :: rest => String.mk [a, b] :: pairGroups rest
  | [a] => [String.mk [a]]
  | [] => []

/-- Modelled from the spec: §4.1 Identity Source Reader (source not under
src/) — trim the identity value, require at least 8 characters (else
`IdentityMalformed`), take the first 8 hex characters, split into 4
consecutive 2-character groups and join with colons. -/
def machinePrefixOfIdentity (identity : String) : Except String String :=
  let t := goTrimSpace identity
  if t.length < 8 then Except.error "IdentityMalformed"
  else Except.ok (joinSep ":" (pairGroups (t.toList.take 8)))

/-- The error of spec §4.4: the Global VF Counter is no longer encodable as
the trailing MAC octet. -/
inductive AssignError where
  | CounterExhausted
deriving DecidableEq

/-- One attempted VF MAC write of the counter-based engine: target path, the
MAC string written, and whether the write succeeded (a failed write is
logged as a warning and the VF is left unassigned, spec §4.4). -/
structure MacWrite where
  path : String
  mac : String
  ok : Bool
deriving DecidableEq

/-- Per-VF MAC attribute path of spec §6:
`<adapter>/device/sriov/<index>/mac`. -/
def specMacPath (hca : String) (i : Nat) : String :=
  joinPath [infinibandBasePath, hca, "device", "sriov", toString i, "mac"]

/-- The VF MAC of spec §3: `02:<prefix>:<counter as two-digit hex>`. -/
def specMacStr (prefixStr : String) (counter : Nat) : String :=
  "02:" ++ prefixStr ++ ":" ++ hex2 counter

/-- Modelled from the spec: §4.4 MAC Assignment Engine loop (source not under
src/) — for each VF index in increasing order: read the counter; if it
exceeds 255 fail the whole assignment with `CounterExhausted` (hard stop);
otherwise write `02:<prefix>:<counter>` to the VF's MAC file and increment
the counter by exactly one regardless of the write's outcome. -/
def specAssignLoop (writeOk : String → Bool) (hca prefixStr : String) :
    List Nat → Nat → List MacWrite × Nat × Option AssignError
  | [], counter => ([], counter, none)
  | i :: rest, counter =>
    if 255 < counter then ([], counter, some AssignError.CounterExhausted)
    else
      (⟨specMacPath hca i, specMacStr prefixStr counter, writeOk (specMacPath hca i)⟩ ::
          (specAssignLoop writeOk hca prefixStr rest (counter + 1)).1,
        (specAssignLoop writeOk hca prefixStr rest (counter + 1)).2)

/-- Modelled from the spec: §4.4 — one adapter's assignment call over VF
indices `0..numVFs-1`, threading the Global VF Counter. -/
def assignVFMacsSpec (writeOk : String → Bool) (hca prefixStr : String)
    (numVFs counter : Nat) : List MacWrite × Nat × Option AssignError :=
  specAssignLoop writeOk hca prefixStr (List.range numVFs) counter

/-- Total VF count requested over a list of (adapter, numVFs) pairs. -/
def sumVFs (ads : List (String × Nat)) : Nat :=
  (ads.map Prod.snd).sum

/-- Modelled from the spec: §4.4/§4.5 orchestration across adapters in
Enumerator order (source not under src/) — the Global VF Counter is shared
and threaded from each adapter's assignment call into the next, never
reset; a `CounterExhausted` failure is reported for that adapter and the
orchestrator moves to the next adapter. -/
def assignAdaptersSpec (writeOk : String → Bool) (prefixStr : String) :
    List (String × Nat) → Nat → List MacWrite × Nat × List (String × AssignError)
  | [], counter => ([], counter, [])
  | (hca, n) :: rest, counter =>
    let r1 := assignVFMacsSpec writeOk hca prefixStr n counter
    let r2 := assignAdaptersSpec writeOk prefixStr rest r1.2.1
    (r1.1 ++ r2.1,
     r2.2.1,
     (match r1.2.2 with
      | some e => [(hca, e)]
      | none => []) ++ r2.2.2)

/-! ## Helper lemmas. -/

/-- Trace concatenation over a split loop range. -/
theorem concatMap_append {α β : Type} (f : α → List β) (l1 l2 : List α) :
    concatMap f (l1 ++ l2) = concatMap f l1 ++ concatMap f l2 := by
  induction l1 with
  | nil => rfl
  | cons a t ih => simp [concatMap, ih, List.append_assoc]

/-- Filtering a loop trace filters each iteration's contribution. -/
theorem filter_concatMap {α β : Type} (p : β → Bool) (f : α → List β) (l : List α) :
    (concatMap f l).filter p = concatMap (fun a => (f a).filter p) l := by
  induction l with
  | nil => rfl
  | cons a t ih => simp [concatMap, List.filter_append, ih]

/-- A loop whose every iteration contributes one element is a map. -/
theorem concatMap_eq_map {α β : Type} (f : α → List β) (g : α → β) (l : List α)
    (h : ∀ a ∈ l, f a = [g a]) : concatMap f l = l.map g := by
  induction l with
  | nil => rfl
  | cons a t ih =>
    simp only [concatMap, List.map_cons, h a (List.mem_cons_self a t)]
    rw [ih (fun b hb => h b (List.mem_cons_of_mem a hb))]
    rfl

/-- The `getHCAs` loop keeps exactly the entries whose stat-resolved target
is a directory, in listing order, and warns once per entry whose stat
failed. -/
theorem getHCAsLoop_eq (fs : FS) (basePath : String) (entries : List String) :
    getHCAsLoop fs basePath entries =
      (entries.filter (fun n => isOkDir (fs.isDir (filepathJoin basePath n))),
       (entries.filter (fun n => isFailure (fs.isDir (filepathJoin basePath n)))).map
         (fun _ => Event.warn "could not stat")) := by
  induction entries with
  | nil => rfl
  | cons name rest ih =>
    simp only [getHCAsLoop, ih, List.filter_cons]
    rcases hd : fs.isDir (filepathJoin basePath name) with e | b
    · simp [isOkDir, isFailure, hd]
    · rcases b with _ | _ <;> simp [isOkDir, isFailure, hd]

/-- Every event emitted by `getHCAs` is a warning (enumeration performs no
writes). -/
theorem getHCAs_events_warn (fs : FS) (basePath : String) :
    ∀ ev ∈ (getHCAs fs basePath).2, ∃ m, ev = Event.warn m := by
  intro ev hev
  unfold getHCAs at hev
  rcases hr : fs.readDir basePath with e | entries
  · rw [hr] at hev; simp at hev
  · rw [hr] at hev
    simp only [getHCAsLoop_eq] at hev
    rcases List.mem_map.mp hev with ⟨n, _, hn⟩
    exact ⟨"could not stat", hn.symm⟩

/-- A warnings-only trace has no writes. -/
theorem writesOf_of_warns (evs : List Event) (h : ∀ ev ∈ evs, ∃ m, ev = Event.warn m) :
    writesOf evs = [] := by
  induction evs with
  | nil => rfl
  | cons a t ih =>
    rcases h a (List.mem_cons_self a t) with ⟨m, hm⟩
    have ht := ih (fun b hb => h b (List.mem_cons_of_mem a hb))
    subst hm
    simpa [writesOf, Event.isWrite] using ht

/-- Mapping over a shifted successor range. -/
theorem map_range_succ_shift {α : Type} (f : Nat → α) (n : Nat) :
    (List.range (n + 1)).map f = f 0 :: (List.range n).map (fun k => f (k + 1)) := by
  rw [List.range_succ_eq_map, List.map_cons, List.map_map]
  rfl

/-- Mapping over a split range. -/
theorem map_range_split {α : Type} (f : Nat → α) (a b : Nat) :
    (List.range (a + b)).map f
      = (List.range a).map f ++ (List.range b).map (fun k => f (a + k)) := by
  rw [List.range_add, List.map_append, List.map_map]
  rfl

/-- Pointwise congruence for maps of counter-indexed MAC strings. -/
theorem map_specMacStr_congr (p : String) (l : List Nat) (f g : Nat → Nat)
    (h : ∀ k, f k = g k) :
    l.map (fun k => specMacStr p (f k)) = l.map (fun k => specMacStr p (g k)) :=
  List.map_congr_left (fun k _ => congrArg (specMacStr p) (h k))

/-- On an index list short enough not to exhaust the counter, the engine
writes one MAC per index: the k-th MAC carries counter value `c0 + k`, the
i-th path is that of VF index i, the final counter is the start plus the
index count, and no error is reported. -/
theorem specLoop_ok (wok : String → Bool) (hca p : String) :
    ∀ (idxs : List Nat) (c0 : Nat), c0 + idxs.length ≤ 256 →
      (specAssignLoop wok hca p idxs c0).1.map MacWrite.mac
          = (List.range idxs.length).map (fun k => specMacStr p (c0 + k))
        ∧ (specAssignLoop wok hca p idxs c0).1.map MacWrite.path = idxs.map (specMacPath hca)
        ∧ (specAssignLoop wok hca p idxs c0).2 = (c0 + idxs.length, none) := by
  intro idxs
  induction idxs with
  | nil => intro c0 _; simp [specAssignLoop]
  | cons i rest ih =>
    intro c0 h
    have hlen : (i :: rest).length = rest.length + 1 := by simp
    have hc : ¬ 255 < c0 := by rw [hlen] at h; omega
    have hr := ih (c0 + 1) (by rw [hlen] at h; omega)
    simp only [specAssignLoop, if_neg hc, List.map_cons]
    refine ⟨?_, ?_, ?_⟩
    · rw [hr.1, hlen, map_range_succ_shift]
      refine List.cons_eq_cons.mpr ⟨congrArg (specMacStr p) (by omega), ?_⟩
      apply List.map_congr_left
      intro k _
      exact congrArg (specMacStr p) (by omega)
    · rw [hr.2.1]
    · rw [hr.2.2, hlen]
      congr 1
      omega

/-- When the counter would pass 255 inside a nonempty assignment call, the
engine reports `CounterExhausted`, writes exactly the MACs for the counter
values up to 255, and never emits a wrapped (mod-256) trailing octet. -/
theorem specLoop_exhaust (wok : String → Bool) (hca p : String) :
    ∀ (idxs : List Nat) (c0 : Nat), idxs ≠ [] → 256 < c0 + idxs.length →
      (specAssignLoop wok hca p idxs c0).1.map MacWrite.mac
          = (List.range (256 - c0)).map (fun k => specMacStr p (c0 + k))
        ∧ (specAssignLoop wok hca p idxs c0).2 = (max 256 c0, some AssignError.CounterExhausted) := by
  intro idxs
  induction idxs with
  | nil => intro c0 hne; exact absurd rfl hne
  | cons i rest ih =>
    intro c0 _ h
    have hlen : (i :: rest).length = rest.length + 1 := by simp
    rw [hlen] at h
    by_cases hc : 255 < c0
    · have h256 : 256 - c0 = 0 := by omega
      have hm : max 256 c0 = c0 := by omega
      simp [specAssignLoop, if_pos hc, h256, hm]
    · have hne : rest ≠ [] := by
        intro he
        rw [he] at h
        simp at h
        omega
      have hr := ih (c0 + 1) hne (by omega)
      simp only [specAssignLoop, if_neg hc, List.map_cons]
      constructor
      · rw [hr.1]
        have hsub : 256 - c0 = (256 - (c0 + 1)) + 1 := by omega
        rw [hsub, map_range_succ_shift]
        refine List.cons_eq_cons.mpr ⟨congrArg (specMacStr p) (by omega), ?_⟩
        apply List.map_congr_left
        intro k _
        exact congrArg (specMacStr p) (by omega)
      · rw [hr.2]
        have hmx : max 256 (c0 + 1) = max 256 c0 := by omega
        rw [hmx]

/-- The MAC strings, target paths, final counter and error outcome of an
assignment call do not depend on which writes succeed: a failed write is
skipped, the counter still advances, and all later VFs see the same
counter values. -/
theorem specLoop_indep (hca p : String) :
    ∀ (idxs : List Nat) (c0 : Nat) (wok wok' : String → Bool),
      (specAssignLoop wok hca p idxs c0).1.map MacWrite.mac
          = (specAssignLoop wok' hca p idxs c0).1.map MacWrite.mac
        ∧ (specAssignLoop wok hca p idxs c0).1.map MacWrite.path
          = (specAssignLoop wok' hca p idxs c0).1.map MacWrite.path
        ∧ (specAssignLoop wok hca p idxs c0).2 = (specAssignLoop wok' hca p idxs c0).2 := by
  intro idxs
  induction idxs with
  | nil => intro c0 wok wok'; exact ⟨rfl, rfl, rfl⟩
  | cons i rest ih =>
    intro c0 wok wok'
    by_cases hc : 255 < c0
    · simp [specAssignLoop, if_pos hc]
    · have hr := ih (c0 + 1) wok wok'
      simp only [specAssignLoop, if_neg hc, List.map_cons]
      exact ⟨by rw [hr.1], by rw [hr.2.1], hr.2.2⟩

/-- Number of write attempts of an assignment call. -/
theorem specLoop_len (wok : String → Bool) (hca p : String) :
    ∀ (idxs : List Nat) (c0 : Nat),
      (specAssignLoop wok hca p idxs c0).1.length = min idxs.length (256 - c0) := by
  intro idxs
  induction idxs with
  | nil => intro c0; simp [specAssignLoop]
  | cons i rest ih =>
    intro c0
    by_cases hc : 255 < c0
    · simp [specAssignLoop, if_pos hc]; omega
    · simp only [specAssignLoop, if_neg hc, List.length_cons, ih (c0 + 1)]
      omega

/-- Each recorded write attempt carries the oracle's outcome for its own
path. -/
theorem specLoop_okflag (wok : String → Bool) (hca p : String) :
    ∀ (idxs : List Nat) (c0 : Nat), ∀ w ∈ (specAssignLoop wok hca p idxs c0).1,
      w.ok = wok w.path := by
  intro idxs
  induction idxs with
  | nil => intro c0 w hw; simp [specAssignLoop] at hw
  | cons i rest ih =>
    intro c0 w hw
    by_cases hc : 255 < c0
    · simp [specAssignLoop, if_pos hc] at hw
    · simp only [specAssignLoop, if_neg hc, List.mem_cons] at hw
      rcases hw with hw | hw
      · subst hw; rfl
      · exact ih (c0 + 1) w hw

/-- Across a list of adapters whose total VF request does not exhaust the
counter, the writes carry the consecutive counter values `c0, c0+1, …`
through every adapter boundary, the final counter is the start plus the
total, and no adapter reports an error. -/
theorem adapters_ok (wok : String → Bool) (p : String) :
    ∀ (ads : List (String × Nat)) (c0 : Nat), c0 + sumVFs ads ≤ 256 →
      (assignAdaptersSpec wok p ads c0).1.map MacWrite.mac
          = (List.range (sumVFs ads)).map (fun k => specMacStr p (c0 + k))
        ∧ (assignAdaptersSpec wok p ads c0).2.1 = c0 + sumVFs ads
        ∧ (assignAdaptersSpec wok p ads c0).2.2 = [] := by
  intro ads
  induction ads with
  | nil => intro c0 _; simp [assignAdaptersSpec, sumVFs]
  | cons ad rest ih =>
    intro c0 h
    obtain ⟨hca, n⟩ := ad
    have hsum : sumVFs ((hca, n) :: rest) = n + sumVFs rest := by simp [sumVFs]
    rw [hsum] at h
    have hloop := specLoop_ok wok hca p (List.range n) c0 (by simp; omega)
    have h2' : (assignVFMacsSpec wok hca p n c0).2 = (c0 + n, none) := by
      simpa [assignVFMacsSpec, List.length_range] using hloop.2.2
    have hmac1 : (assignVFMacsSpec wok hca p n c0).1.map MacWrite.mac
        = (List.range n).map (fun k => specMacStr p (c0 + k)) := by
      simpa [assignVFMacsSpec, List.length_range] using hloop.1
    have hrest := ih (c0 + n) (by omega)
    simp only [assignAdaptersSpec, h2', List.map_append, hsum]
    refine ⟨?_, ?_, ?_⟩
    · rw [hmac1, hrest.1, map_range_split]
      refine congrArg₂ (· ++ ·) rfl ?_
      apply List.map_congr_left
      intro k _
      exact congrArg (specMacStr p) (by omega)
    · rw [hrest.2.1]; omega
    · simp [hrest.2.2]

/-- Truncated remainder (Go `%` on `int64`) is 256-periodic on nonnegative
dividends. -/
theorem tmod256_add (a : Nat) : Int.tmod ((a : Int) + 256) 256 = Int.tmod (a : Int) 256 := by
  have h1 : ((a : Int) + 256) = ((a + 256 : Nat) : Int) := by push_cast; ring
  rw [h1]
  show Int.ofNat ((a + 256) % 256) = Int.ofNat (a % 256)
  rw [Nat.add_mod_right]

/-- The PF-MAC-derived VF MAC of src/main.go is 256-periodic in the VF
index: the trailing octet `(pfLastOctet + i) % 256` wraps, so indices `i`
and `i + 256` produce character-for-character identical MAC strings. -/
theorem vfMacOf_period (o1 o2 o3 o4 : String) (pfLast : Int) (hp : 0 ≤ pfLast) (i : Nat) :
    vfMacOf o1 o2 o3 o4 pfLast (i + 256) = vfMacOf o1 o2 o3 o4 pfLast i := by
  obtain ⟨m, hm⟩ := Int.eq_ofNat_of_zero_le hp
  subst hm
  unfold vfMacOf
  have h1 : ((m : Int)) + ((i + 256 : Nat) : Int) = ((m + i : Nat) : Int) + 256 := by
    push_cast; ring
  have h2 : ((m : Int)) + ((i : Nat) : Int) = ((m + i : Nat) : Int) := by
    push_cast; ring
  rw [h1, h2, tmod256_add]

/-- The write events of the src MAC-assignment loop: exactly one attempted
MAC write per VF index, in increasing index order, regardless of write
outcomes. -/
theorem writesOf_assignWith (fs : FS) (hca o1 o2 o3 o4 : String) (pfLast : Int) (n : Int) :
    writesOf (assignVFMacsWith fs hca o1 o2 o3 o4 pfLast n) =
      (List.range n.toNat).map (fun i =>
        Event.write (vfMacPath hca i) (vfMacOf o1 o2 o3 o4 pfLast i)
          (fs.writeOk (vfMacPath hca i))) := by
  unfold assignVFMacsWith writesOf
  rw [filter_concatMap]
  apply concatMap_eq_map
  intro i _
  by_cases hw : fs.writeOk (vfMacPath hca i)
  · simp [assignVFStep, hw, Event.isWrite]
  · simp [assignVFStep, hw, Event.isWrite]

/-- Reduction of `assignVFMacs` under a successful 6-octet split and a
successful hex parse of the last octet. -/
theorem assignVFMacs_eq (fs : FS) (hca pfMAC : String) (numVFs : Int)
    (o0 o1 o2 o3 o4 o5 : String) (pfLast : Int)
    (hsplit : goSplit pfMAC ':' = [o0, o1, o2, o3, o4, o5])
    (hparse : parseIntHex o5 = some pfLast) :
    assignVFMacs fs hca pfMAC numVFs
      = (Except.ok (), assignVFMacsWith fs hca o1 o2 o3 o4 pfLast numVFs) := by
  unfold assignVFMacs
  rw [hsplit]
  simp only [hparse]

/-! ## Sample filesystems for the witnesses. -/

/-- Sample filesystem: one HCA `mlx5_0` whose stat-resolved target is a
directory, one entry resolving to a non-directory, one entry whose stat
fails; the HCA has one net interface with PF MAC `aa:79:a0:e6:4b:ff`, two
`virtfn` links to PCI devices bound to `mlx5_core`, and the `mlx5_core`
unbind control write fails while every other write succeeds. -/
def fsDemo : FS where
  readDir := fun p =>
    if p = "/sys/class/infiniband" then Except.ok ["mlx5_0", "notadir", "badstat"]
    else if p = "/sys/class/infiniband/mlx5_0/device/net" then Except.ok ["ib0"]
    else if p = "/sys/class/infiniband/mlx5_0/device" then
      Except.ok ["net", "sriov_numvfs", "virtfn0", "virtfn1"]
    else Except.error "ENOENT"
  isDir := fun p =>
    if p = "/sys/class/infiniband/mlx5_0" then Except.ok true
    else if p = "/sys/class/infiniband/notadir" then Except.ok false
    else Except.error "ENOENT"
  readFile := fun p =>
    if p = "/sys/class/infiniband/mlx5_0/device/net/ib0/address" then
      Except.ok "aa:79:a0:e6:4b:ff\n"
    else Except.error "ENOENT"
  readlink := fun p =>
    if p = "/sys/class/infiniband/mlx5_0/device/virtfn0" then Except.ok "../0000:03:00.2"
    else if p = "/sys/class/infiniband/mlx5_0/device/virtfn1" then Except.ok "../0000:03:00.3"
    else if p = "/sys/bus/pci/devices/0000:03:00.2/driver" then
      Except.ok "../../../bus/pci/drivers/mlx5_core"
    else if p = "/sys/bus/pci/devices/0000:03:00.3/driver" then
      Except.ok "../../../bus/pci/drivers/mlx5_core"
    else Except.error "ENOENT"
  writeOk := fun p => !(p == "/sys/bus/pci/drivers/mlx5_core/unbind")

/-- Sample filesystem: one HCA whose `device/net` directory cannot be read
(every write would succeed; none is attempted for that adapter). -/
def fsNetFail : FS where
  readDir := fun p =>
    if p = "/sys/class/infiniband" then Except.ok ["mlx5_0"] else Except.error "ENOENT"
  isDir := fun _ => Except.ok true
  readFile := fun _ => Except.error "ENOENT"
  readlink := fun _ => Except.error "ENOENT"
  writeOk := fun _ => true

/-- Sample filesystem: one HCA whose net directory lists an interface but
whose `address` file cannot be read. -/
def fsAddrFail : FS where
  readDir := fun p =>
    if p = "/sys/class/infiniband" then Except.ok ["mlx5_0"]
    else if p = "/sys/class/infiniband/mlx5_0/device/net" then Except.ok ["ib0"]
    else Except.error "ENOENT"
  isDir := fun _ => Except.ok true
  readFile := fun _ => Except.error "ENOENT"
  readlink := fun _ => Except.error "ENOENT"
  writeOk := fun _ => true

/-- Sample filesystem: the device-class base directory lists no entries. -/
def fsEmpty : FS where
  readDir := fun p =>
    if p = "/sys/class/infiniband" then Except.ok [] else Except.error "ENOENT"
  isDir := fun _ => Except.error "ENOENT"
  readFile := fun _ => Except.error "ENOENT"
  readlink := fun _ => Except.error "ENOENT"
  writeOk := fun _ => true

/-- Sample filesystem: every filesystem call fails (unlistable base
directory). -/
def fsDead : FS where
  readDir := fun _ => Except.error "EACCES"
  isDir := fun _ => Except.error "EACCES"
  readFile := fun _ => Except.error "EACCES"
  readlink := fun _ => Except.error "EACCES"
  writeOk := fun _ => true

/-- Write oracle that fails exactly the MAC write of VF index 1 of
`mlx5_0`. -/
def vf1Fails : String → Bool :=
  fun p => !(p == "/sys/class/infiniband/mlx5_0/device/sriov/1/mac")

/-! ## Claims. -/

/-- C1: for every adapter, each MAC written by the counter-based engine is
`02:<Machine Prefix derived from the machine identity>:<counter at
assignment time as two hex digits>`; the writes target the per-index MAC
paths in increasing order, and from counter `c0` an `n`-VF call (fitting
the counter) ends with counter `c0 + n` and no error — at `n = 3`, `c0 = 0`
and prefix `79:a0:e6:4b` the witness shows the MACs are exactly
`02:79:a0:e6:4b:00/01/02` with final counter 3. -/
theorem c1_counter_macs (wok : String → Bool) (ident hca prefixStr : String) (c0 n : Nat)
    (hp : machinePrefixOfIdentity ident = Except.ok prefixStr)
    (h : c0 + n ≤ 256) :
    (assignVFMacsSpec wok hca prefixStr n c0).1.map MacWrite.mac
        = (List.range n).map (fun k => specMacStr prefixStr (c0 + k))
      ∧ (assignVFMacsSpec wok hca prefixStr n c0).1.map MacWrite.path
        = (List.range n).map (specMacPath hca)
      ∧ (assignVFMacsSpec wok hca prefixStr n c0).2 = (c0 + n, none) := by
  have hl := specLoop_ok wok hca prefixStr (List.range n) c0 (by simp; omega)
  simpa [assignVFMacsSpec, List.length_range] using hl

/-- Witness for C1: concrete machine identity `79a0e64b…` yields prefix
`79:a0:e6:4b`, and the claim's three-VF scenario from counter 0 produces
exactly the three expected MAC strings and final counter 3. -/
theorem c1_counter_macs_witness :
    machinePrefixOfIdentity "79a0e64b3f2a1c0d" = Except.ok "79:a0:e6:4b"
      ∧ (assignVFMacsSpec (fun _ => true) "mlx5_0" "79:a0:e6:4b" 3 0).1.map MacWrite.mac
        = ["02:79:a0:e6:4b:00", "02:79:a0:e6:4b:01", "02:79:a0:e6:4b:02"]
      ∧ (assignVFMacsSpec (fun _ => true) "mlx5_0" "79:a0:e6:4b" 3 0).2 = (3, none) := by
  have h := c1_counter_macs (fun _ => true) "79a0e64b3f2a1c0d" "mlx5_0" "79:a0:e6:4b" 0 3
    rfl (by omega)
  exact ⟨rfl, h.1.trans (by rfl), h.2.2⟩

/-- C2: a VF MAC assignment that would use a counter value exceeding 255
fails the whole call with `CounterExhausted`: the error is reported, the
MACs written are exactly those for the counter values up to 255 (never a
value wrapped modulo 256), and the number of writes is cut short of the
requested count. -/
theorem c2_counter_exhausted (wok : String → Bool) (hca prefixStr : String) (c0 n : Nat)
    (hn : 1 ≤ n) (h : 256 < c0 + n) :
    (assignVFMacsSpec wok hca prefixStr n c0).2.2 = some AssignError.CounterExhausted
      ∧ (assignVFMacsSpec wok hca prefixStr n c0).1.map MacWrite.mac
        = (List.range (256 - c0)).map (fun k => specMacStr prefixStr (c0 + k))
      ∧ (assignVFMacsSpec wok hca prefixStr n c0).1.length = min n (256 - c0) := by
  have hne : List.range n ≠ [] := by
    simp only [ne_eq, List.range_eq_nil]
    omega
  have he := specLoop_exhaust wok hca prefixStr (List.range n) c0 hne
    (by simp; omega)
  have hlen := specLoop_len wok hca prefixStr (List.range n) c0
  refine ⟨?_, ?_, ?_⟩
  · unfold assignVFMacsSpec
    rw [he.2]
  · exact he.1
  · unfold assignVFMacsSpec
    rw [hlen, List.length_range]

/-- Witness for C2: from counter 255, a 2-VF call writes only the MAC for
counter value ff and stops with `CounterExhausted`. -/
theorem c2_counter_exhausted_witness :
    (assignVFMacsSpec (fun _ => true) "mlx5_0" "79:a0:e6:4b" 2 255).2.2
        = some AssignError.CounterExhausted
      ∧ (assignVFMacsSpec (fun _ => true) "mlx5_0" "79:a0:e6:4b" 2 255).1.map MacWrite.mac
        = ["02:79:a0:e6:4b:ff"]
      ∧ (assignVFMacsSpec (fun _ => true) "mlx5_0" "79:a0:e6:4b" 2 255).1.length = 1 := by
  have h := c2_counter_exhausted (fun _ => true) "mlx5_0" "79:a0:e6:4b" 255 2
    (by omega) (by omega)
  exact ⟨h.1, h.2.1.trans (by rfl), h.2.2.trans (by rfl)⟩

/-- C3: the Global VF Counter is shared and monotonically increasing across
all adapters of a run and never reset between adapters: over any adapter
sequence (in enumeration order) whose total request fits the counter, the
written MACs carry the consecutive counter values `c0, c0+1, …` straight
through every adapter boundary, the final counter is `c0` plus the total,
no error occurs, and the adapter after the first starts exactly at `c0`
plus the first adapter's VF count. -/
theorem c3_counter_shared (wok : String → Bool) (prefixStr : String)
    (ads : List (String × Nat)) (c0 : Nat) (h : c0 + sumVFs ads ≤ 256) :
    ((assignAdaptersSpec wok prefixStr ads c0).1.map MacWrite.mac
        = (List.range (sumVFs ads)).map (fun k => specMacStr prefixStr (c0 + k)))
      ∧ (assignAdaptersSpec wok prefixStr ads c0).2.1 = c0 + sumVFs ads
      ∧ (assignAdaptersSpec wok prefixStr ads c0).2.2 = []
      ∧ (∀ hca1 n1 rest, ads = (hca1, n1) :: rest →
          (assignAdaptersSpec wok prefixStr ads c0).1
            = (assignVFMacsSpec wok hca1 prefixStr n1 c0).1
                ++ (assignAdaptersSpec wok prefixStr rest (c0 + n1)).1) := by
  have ha := adapters_ok wok prefixStr ads c0 h
  refine ⟨ha.1, ha.2.1, ha.2.2, ?_⟩
  intro hca1 n1 rest hads
  subst hads
  have hsum : sumVFs ((hca1, n1) :: rest) = n1 + sumVFs rest := by simp [sumVFs]
  rw [hsum] at h
  have hloop := specLoop_ok wok hca1 prefixStr (List.range n1) c0 (by simp; omega)
  have h2' : (assignVFMacsSpec wok hca1 prefixStr n1 c0).2 = (c0 + n1, none) := by
    simpa [assignVFMacsSpec, List.length_range] using hloop.2.2
  simp only [assignAdaptersSpec, h2']

/-- Witness for C3: two adapters requesting 2 VFs each from counter 0 — the
second adapter's two VFs receive counter values 2 and 3 in their trailing
octet (not 0 and 1), and the final counter is 4. -/
theorem c3_counter_shared_witness :
    (assignAdaptersSpec (fun _ => true) "79:a0:e6:4b" [("mlx5_0", 2), ("mlx5_1", 2)] 0).1.map
        MacWrite.mac
      = ["02:79:a0:e6:4b:00", "02:79:a0:e6:4b:01", "02:79:a0:e6:4b:02", "02:79:a0:e6:4b:03"]
      ∧ (assignAdaptersSpec (fun _ => true) "79:a0:e6:4b" [("mlx5_0", 2), ("mlx5_1", 2)] 0).2.1
        = 4
      ∧ (((assignAdaptersSpec (fun _ => true) "79:a0:e6:4b"
            [("mlx5_0", 2), ("mlx5_1", 2)] 0).1.drop 2).map
          (fun w => (w.path, w.mac)))
        = [("/sys/class/infiniband/mlx5_1/device/sriov/0/mac", "02:79:a0:e6:4b:02"),
           ("/sys/class/infiniband/mlx5_1/device/sriov/1/mac", "02:79:a0:e6:4b:03")] := by
  have h := c3_counter_shared (fun _ => true) "79:a0:e6:4b"
    [("mlx5_0", 2), ("mlx5_1", 2)] 0 (by decide)
  exact ⟨h.1.trans (by rfl), h.2.1, by rfl⟩

/-- C5: a failed per-VF MAC write is only recorded (warning, VF left
unassigned) and the call otherwise proceeds unchanged: the MAC values,
target paths, final counter and error outcome are the same under every
write oracle; every attempt carries the oracle's outcome for its own path;
the number of attempts is outcome-independent; and (absent exhaustion) the
k-th attempt still carries counter value `c0 + k`, so the VF after a failed
write receives the next counter value and never a repeated one. -/
theorem c5_counter_advances (hca prefixStr : String) (n c0 : Nat)
    (wok wok' : String → Bool) :
    ((assignVFMacsSpec wok hca prefixStr n c0).1.map MacWrite.mac
        = (assignVFMacsSpec wok' hca prefixStr n c0).1.map MacWrite.mac)
      ∧ ((assignVFMacsSpec wok hca prefixStr n c0).1.map MacWrite.path
        = (assignVFMacsSpec wok' hca prefixStr n c0).1.map MacWrite.path)
      ∧ (assignVFMacsSpec wok hca prefixStr n c0).2
        = (assignVFMacsSpec wok' hca prefixStr n c0).2
      ∧ (∀ w ∈ (assignVFMacsSpec wok hca prefixStr n c0).1, w.ok = wok w.path)
      ∧ (assignVFMacsSpec wok hca prefixStr n c0).1.length = min n (256 - c0)
      ∧ (c0 + n ≤ 256 →
          (assignVFMacsSpec wok hca prefixStr n c0).1.map MacWrite.mac
            = (List.range n).map (fun k => specMacStr prefixStr (c0 + k))) := by
  have hi := specLoop_indep hca prefixStr (List.range n) c0 wok wok'
  have hf := specLoop_okflag wok hca prefixStr (List.range n) c0
  have hl := specLoop_len wok hca prefixStr (List.range n) c0
  refine ⟨hi.1, hi.2.1, hi.2.2, hf, ?_, ?_⟩
  · unfold assignVFMacsSpec
    rw [hl, List.length_range]
  · intro hle
    have ho := specLoop_ok wok hca prefixStr (List.range n) c0 (by simp; omega)
    simpa [assignVFMacsSpec, List.length_range] using ho.1

/-- Witness for C5: with the write of VF 1 failing, the three MACs and the
final counter are exactly those of the all-successful run, and the outcome
flags record the single failure. -/
theorem c5_counter_advances_witness :
    (assignVFMacsSpec vf1Fails "mlx5_0" "79:a0:e6:4b" 3 0).1.map MacWrite.mac
        = ["02:79:a0:e6:4b:00", "02:79:a0:e6:4b:01", "02:79:a0:e6:4b:02"]
      ∧ (assignVFMacsSpec vf1Fails "mlx5_0" "79:a0:e6:4b" 3 0).2 = (3, none)
      ∧ (assignVFMacsSpec vf1Fails "mlx5_0" "79:a0:e6:4b" 3 0).1.map MacWrite.ok
        = [true, false, true] := by
  have h := c5_counter_advances "mlx5_0" "79:a0:e6:4b" 3 0 vf1Fails (fun _ => true)
  exact ⟨(h.2.2.2.2.2 (by omega)).trans (by rfl), h.2.2.1.trans (by rfl), by rfl⟩

/-- C4 (settling the code bug): the claim — backed by the README's
"Disabling VFs" section (`NUM_VFS=0` disables all VFs) and the spec's
end-to-end scenario — says a run with `NUM_VFS=0` proceeds; src/main.go:21
instead rejects every `numVFs <= 0` at startup: with the environment value
"0" the run exits 1 with an empty trace (no pool resize write of 0, no
other write) for every filesystem state and device-ID filter. -/
theorem c4_numvfs_zero_fatal (fs : FS) (devID : String) :
    mainRun fs "0" devID = (1, []) := by
  unfold mainRun
  rw [if_neg (by decide : ¬("0" : String) = "")]
  show mainRunWith fs devID (some 0) = (1, [])
  simp only [mainRunWith]
  rw [if_pos (le_refl (0 : Int))]

/-- C6: adapter enumeration lists the fixed device-class directory and, per
entry, includes the entry's name exactly when the symlink-following stat
resolves to a directory (listing order preserved); an entry whose stat
fails is skipped with one warning; an unlistable base directory is fatal
(exit 1, empty trace) and an empty enumeration result is fatal (exit 1, no
write ever attempted). -/
theorem c6_enumeration (fs : FS) (numStr devID : String) :
    (∀ entries, fs.readDir infinibandBasePath = Except.ok entries →
        (getHCAs fs infinibandBasePath).1
            = Except.ok (entries.filter
                (fun n => isOkDir (fs.isDir (filepathJoin infinibandBasePath n))))
          ∧ (getHCAs fs infinibandBasePath).2
            = (entries.filter
                (fun n => isFailure (fs.isDir (filepathJoin infinibandBasePath n)))).map
                  (fun _ => Event.warn "could not stat"))
      ∧ (∀ e, fs.readDir infinibandBasePath = Except.error e →
          mainRun fs numStr devID = (1, []))
      ∧ ((getHCAs fs infinibandBasePath).1 = Except.ok [] →
          (mainRun fs numStr devID).1 = 1
            ∧ writesOf (mainRun fs numStr devID).2 = []) := by
  refine ⟨?_, ?_, ?_⟩
  · intro entries he
    have h1 : getHCAs fs infinibandBasePath
        = (Except.ok (getHCAsLoop fs infinibandBasePath entries).1,
           (getHCAsLoop fs infinibandBasePath entries).2) := by
      unfold getHCAs
      rw [he]
    rw [h1, getHCAsLoop_eq]
    exact ⟨rfl, rfl⟩
  · intro e he
    have hg : getHCAs fs infinibandBasePath = (Except.error e, []) := by
      unfold getHCAs
      rw [he]
    unfold mainRun
    by_cases hs : numStr = ""
    · rw [if_pos hs]
    · rw [if_neg hs]
      rcases hp : parseAtoi numStr with _ | n
      · rfl
      · simp only [mainRunWith]
        by_cases hn : n ≤ 0
        · rw [if_pos hn]
        · rw [if_neg hn, hg]
          rfl
  · intro hok
    rcases hg : getHCAs fs infinibandBasePath with ⟨r, evs⟩
    rw [hg] at hok
    simp only at hok
    subst hok
    have hw : ∀ ev ∈ evs, ∃ m, ev = Event.warn m := by
      have h0 := getHCAs_events_warn fs infinibandBasePath
      rw [hg] at h0
      exact h0
    have hwrites : writesOf evs = [] := writesOf_of_warns evs hw
    unfold mainRun
    by_cases hs : numStr = ""
    · rw [if_pos hs]
      exact ⟨rfl, rfl⟩
    · rw [if_neg hs]
      rcases hp : parseAtoi numStr with _ | n
      · exact ⟨rfl, rfl⟩
      · simp only [mainRunWith]
        by_cases hn : n ≤ 0
        · rw [if_pos hn]
          exact ⟨rfl, rfl⟩
        · rw [if_neg hn, hg]
          exact ⟨rfl, hwrites⟩

/-- Witness for C6: on the three-entry sample listing only `mlx5_0`
survives (non-directory and failed-stat entries dropped, one warning); an
all-failing filesystem exits 1 with an empty trace; an empty listing exits
1. -/
theorem c6_enumeration_witness :
    (getHCAs fsDemo infinibandBasePath).1 = Except.ok ["mlx5_0"]
      ∧ (getHCAs fsDemo infinibandBasePath).2 = [Event.warn "could not stat"]
      ∧ mainRun fsDead "2" "" = (1, [])
      ∧ (mainRun fsEmpty "2" "").1 = 1 := by
  have h1 := (c6_enumeration fsDemo "2" "").1 ["mlx5_0", "notadir", "badstat"] rfl
  have h2 := (c6_enumeration fsDead "2" "").2.1 "EACCES" rfl
  have h3 := (c6_enumeration fsEmpty "2" "").2.2 rfl
  exact ⟨h1.1.trans (by rfl), h1.2.trans (by rfl), h2, h3.1⟩

/-- C7: for every `virtfn*` entry whose own symlink and whose driver
symlink both resolve, the rebind step's write events are exactly one write
of the VF's PCI address to the resolved driver's unbind control file
followed by one write of the same address to its bind control file — an
equation that holds for every write oracle, so the bind write is attempted
even when the unbind write fails — and the whole rebind trace is the
concatenation of per-entry traces, so no VF's outcome affects another
VF's processing. -/
theorem c7_rebind_order (fs : FS) (hca : String) :
    (∀ entries, fs.readDir (pfDevDirOf hca) = Except.ok entries →
        rebindVFDevices fs hca
          = (Except.ok (), concatMap (rebindOne fs (pfDevDirOf hca)) entries))
      ∧ (∀ name target driverLink,
          goStartsWith name "virtfn" = true →
          fs.readlink (filepathJoin (pfDevDirOf hca) name) = Except.ok target →
          fs.readlink (vfDriverLinkPath (vfPciAddrOf (pfDevDirOf hca) target))
              = Except.ok driverLink →
          writesOf (rebindOne fs (pfDevDirOf hca) name)
            = [Event.write (driverUnbindPath (filepathBase driverLink))
                  (vfPciAddrOf (pfDevDirOf hca) target)
                  (fs.writeOk (driverUnbindPath (filepathBase driverLink))),
               Event.write (driverBindPath (filepathBase driverLink))
                  (vfPciAddrOf (pfDevDirOf hca) target)
                  (fs.writeOk (driverBindPath (filepathBase driverLink)))]) := by
  constructor
  · intro entries he
    unfold rebindVFDevices
    rw [he]
  · intro name target driverLink hpre hlink hdrv
    unfold rebindOne
    rw [if_neg (by simp [hpre])]
    simp only [hlink, hdrv]
    by_cases h1 : fs.writeOk (driverUnbindPath (filepathBase driverLink)) <;>
      by_cases h2 : fs.writeOk (driverBindPath (filepathBase driverLink)) <;>
      simp [writesOf, Event.isWrite, h1, h2]

/-- Witness for C7: on the sample filesystem the unbind write fails and the
bind write is still attempted, both carrying PCI address `0000:03:00.2`, in
unbind-then-bind order. -/
theorem c7_rebind_order_witness :
    writesOf (rebindOne fsDemo (pfDevDirOf "mlx5_0") "virtfn0")
      = [Event.write "/sys/bus/pci/drivers/mlx5_core/unbind" "0000:03:00.2" false,
         Event.write "/sys/bus/pci/drivers/mlx5_core/bind" "0000:03:00.2" true] := by
  have h := (c7_rebind_order fsDemo "mlx5_0").2 "virtfn0" "../0000:03:00.2"
    "../../../bus/pci/drivers/mlx5_core" (by rfl) (by rfl) (by rfl)
  exact h.trans (by rfl)

/-- C8: per-adapter errors never change the overall exit code — once
NUM_VFS parses positive and enumeration returns a nonempty adapter list,
the loop visits every adapter and the run exits 0 whatever the adapters'
outcomes; a parse failure or non-positive NUM_VFS exits 1 with an empty
trace; and every exit-1 run has an empty write trace (fatal errors precede
any device write). -/
theorem c8_exit_codes (fs : FS) (numStr devID : String) :
    (∀ n : Int, parseAtoi numStr = some n → 0 < n →
        ∀ hcas evs, getHCAs fs infinibandBasePath = (Except.ok hcas, evs) → hcas ≠ [] →
          mainRun fs numStr devID = (0, evs ++ concatMap (processHCA fs devID n) hcas))
      ∧ (parseAtoi numStr = none → mainRun fs numStr devID = (1, []))
      ∧ (∀ n : Int, parseAtoi numStr = some n → n ≤ 0 → mainRun fs numStr devID = (1, []))
      ∧ ((mainRun fs numStr devID).1 = 1 → writesOf (mainRun fs numStr devID).2 = []) := by
  refine ⟨?_, ?_, ?_, ?_⟩
  · intro n hp hpos hcas evs hg hne
    have hs : numStr ≠ "" := by
      intro he
      rw [he, (rfl : parseAtoi "" = none)] at hp
      exact Option.noConfusion hp
    unfold mainRun
    rw [if_neg hs, hp]
    simp only [mainRunWith]
    rw [if_neg (by omega : ¬ n ≤ 0), hg]
    simp only [mainRunLoop]
    rw [if_neg (fun h0 => hne (List.length_eq_zero.mp h0))]
  · intro hp
    unfold mainRun
    by_cases hs : numStr = ""
    · rw [if_pos hs]
    · rw [if_neg hs, hp]
      rfl
  · intro n hp hn
    have hs : numStr ≠ "" := by
      intro he
      rw [he, (rfl : parseAtoi "" = none)] at hp
      exact Option.noConfusion hp
    unfold mainRun
    rw [if_neg hs, hp]
    simp only [mainRunWith]
    rw [if_pos hn]
  · intro h1
    unfold mainRun at h1 ⊢
    by_cases hs : numStr = ""
    · rw [if_pos hs]; rfl
    · rw [if_neg hs]
      rcases hp : parseAtoi numStr with _ | n
      · rfl
      · simp only [mainRunWith]
        by_cases hn : n ≤ 0
        · rw [if_pos hn]; rfl
        · rw [if_neg hn]
          rcases hg : getHCAs fs infinibandBasePath with ⟨r, evs⟩
          have hw : ∀ ev ∈ evs, ∃ m, ev = Event.warn m := by
            have h0 := getHCAs_events_warn fs infinibandBasePath
            rw [hg] at h0
            exact h0
          rcases r with e | hcas
          · exact writesOf_of_warns evs hw
          · by_cases hlen : hcas.length = 0
            · simp only [mainRunLoop]
              rw [if_pos hlen]
              exact writesOf_of_warns evs hw
            · exfalso
              rw [if_neg hs, hp] at h1
              simp only [mainRunWith] at h1
              rw [if_neg hn, hg] at h1
              simp only [mainRunLoop] at h1
              rw [if_neg hlen] at h1
              simp at h1

/-- Witness for C8: a run whose single adapter fails (unreadable net
directory) still completes the loop and exits 0, the failure appearing only
as a warning. -/
theorem c8_exit_codes_witness :
    (mainRun fsNetFail "2" "").1 = 0
      ∧ (mainRun fsNetFail "2" "").2 = [Event.warn "error configuring HCA"] := by
  have h := (c8_exit_codes fsNetFail "2" "").1 2 rfl (by omega) ["mlx5_0"] []
    (by rfl) (by simp)
  constructor
  · rw [h]
  · rw [h]
    rfl

/-- C9: in a single src assignment call the trailing MAC octet is
`(PF last octet + VF index) % 256` — the write events are exactly one
attempted MAC write per index carrying that octet — hence the MAC string
is 256-periodic in the index: VF `i` and VF `i + 256` receive
character-for-character identical MAC strings, and for `numVFs > 256` MAC
uniqueness within the call fails (VF 0 and VF 256 collide). -/
theorem c9_mac_wrap (fs : FS) (hca pfMAC : String) (numVFs : Int)
    (o0 o1 o2 o3 o4 o5 : String) (pfLast : Int)
    (hsplit : goSplit pfMAC ':' = [o0, o1, o2, o3, o4, o5])
    (hparse : parseIntHex o5 = some pfLast) (hpos : 0 ≤ pfLast) :
    writesOf (assignVFMacs fs hca pfMAC numVFs).2
        = (List.range numVFs.toNat).map (fun i =>
            Event.write (vfMacPath hca i) (vfMacOf o1 o2 o3 o4 pfLast i)
              (fs.writeOk (vfMacPath hca i)))
      ∧ (∀ i : Nat, vfMacOf o1 o2 o3 o4 pfLast (i + 256) = vfMacOf o1 o2 o3 o4 pfLast i)
      ∧ (256 < numVFs →
          ∃ i j : Nat, i < j ∧ (j : Int) < numVFs
            ∧ vfMacOf o1 o2 o3 o4 pfLast i = vfMacOf o1 o2 o3 o4 pfLast j) := by
  refine ⟨?_, ?_, ?_⟩
  · rw [assignVFMacs_eq fs hca pfMAC numVFs o0 o1 o2 o3 o4 o5 pfLast hsplit hparse]
    exact writesOf_assignWith fs hca o1 o2 o3 o4 pfLast numVFs
  · intro i
    exact vfMacOf_period o1 o2 o3 o4 pfLast hpos i
  · intro h
    refine ⟨0, 256, by omega, by exact_mod_cast h, ?_⟩
    exact (vfMacOf_period o1 o2 o3 o4 pfLast hpos 0).symm

/-- Witness for C9: with PF MAC `aa:79:a0:e6:4b:ff`, VF 256 and VF 0 get
the identical MAC string, which moreover exhibits the wrap already at VF 1
(`ff + 1 ≡ 00`). -/
theorem c9_mac_wrap_witness :
    vfMacOf "79" "a0" "e6" "4b" 255 256 = vfMacOf "79" "a0" "e6" "4b" 255 0
      ∧ vfMacOf "79" "a0" "e6" "4b" 255 0 = "02:79:a0:e6:4b:ff"
      ∧ vfMacOf "79" "a0" "e6" "4b" 255 1 = "02:79:a0:e6:4b:00" := by
  have h := (c9_mac_wrap fsDemo "mlx5_0" "aa:79:a0:e6:4b:ff" 2
    "aa" "79" "a0" "e6" "4b" "ff" 255 rfl rfl (by omega)).2.1 0
  exact ⟨h, by rfl, by rfl⟩

/-- C10: an adapter whose `device/net` directory cannot be read or is
empty, or whose first interface's `address` file cannot be read, is aborted
before any state change — `configureHCA` returns an error with an empty
trace (no pool resize write, no MAC write, no rebind write) — and the main
loop's trace decomposes around that adapter, the remaining adapters being
processed exactly as they would be on their own. -/
theorem c10_pfmac_failure_aborts (fs : FS) (hca : String) (n : Int) (devID : String)
    (h : isFailure (fs.readDir (netDirOf hca)) = true
        ∨ fs.readDir (netDirOf hca) = Except.ok []
        ∨ ∃ iface rest, fs.readDir (netDirOf hca) = Except.ok (iface :: rest)
            ∧ isFailure (fs.readFile (joinPath [netDirOf hca, iface, "address"])) = true) :
    (∃ msg, configureHCA fs hca n = (Except.error msg, []))
      ∧ (∀ pre post : List String,
          concatMap (processHCA fs devID n) (pre ++ hca :: post)
            = concatMap (processHCA fs devID n) pre
                ++ processHCA fs devID n hca
                ++ concatMap (processHCA fs devID n) post) := by
  have hpf : ∃ e, getPFMac fs hca = Except.error e := by
    rcases h with h | h | ⟨iface, rest, hd, hf⟩
    · rcases hr : fs.readDir (netDirOf hca) with e | entries
      · exact ⟨"error reading net directory", by unfold getPFMac; rw [hr]⟩
      · rw [hr] at h
        simp [isFailure] at h
    · exact ⟨"no network interfaces found", by unfold getPFMac; rw [h]⟩
    · rcases hr : fs.readFile (joinPath [netDirOf hca, iface, "address"]) with e | data
      · refine ⟨"error reading MAC address", ?_⟩
        have h1 : getPFMac fs hca
            = match fs.readFile (joinPath [netDirOf hca, iface, "address"]) with
              | Except.error _ => Except.error "error reading MAC address"
              | Except.ok data => Except.ok (goTrimSpace data) := by
          unfold getPFMac
          rw [hd]
        rw [h1, hr]
      · rw [hr] at hf
        simp [isFailure] at hf
  constructor
  · obtain ⟨e, he⟩ := hpf
    refine ⟨"failed to get PF MAC: " ++ e, ?_⟩
    unfold configureHCA
    rw [he]
  · intro pre post
    rw [concatMap_append]
    simp [concatMap, List.append_assoc]

/-- Witness for C10: an unreadable net directory and an unreadable address
file each abort the adapter's configuration with an empty trace. -/
theorem c10_pfmac_failure_aborts_witness :
    (∃ msg, configureHCA fsNetFail "mlx5_0" 2 = (Except.error msg, []))
      ∧ (∃ msg, configureHCA fsAddrFail "mlx5_0" 2 = (Except.error msg, [])) := by
  have h1 := (c10_pfmac_failure_aborts fsNetFail "mlx5_0" 2 "" (Or.inl rfl)).1
  have h2 := (c10_pfmac_failure_aborts fsAddrFail "mlx5_0" 2 ""
    (Or.inr (Or.inr ⟨"ib0", [], rfl, rfl⟩))).1
  exact ⟨h1, h2⟩

end SriovVFs
